import Mathlib

/-!
Shallow embedding of the Twister puzzle solver (`twister.py`) and proofs of
the specification claims about it.

Modelling conventions:
* Python `int` is `Int`; Python lists are Lean `List`s with `append`/`pop`
  acting at the end, exactly as the source does.
* Fallible Python code (raised `ValueError`s, failed `assert`s, out-of-range
  indexing, `pop` on an empty list) is modelled with `Option`: `none` is an
  exception escaping the function.
* `dfs` can return Python `True`, `False`, or fall off the end returning
  `None`; these three results are kept distinct in the `PyVal` type because
  callers only test truthiness while the spec talks about boolean returns.
* The unbounded recursion of `dfs` is modelled with an explicit fuel
  parameter; a fuel-stabilisation theorem shows that any fuel of at least
  `28 - cube_index` yields the same result, which is the termination claim.
-/

namespace Twister

/-- A face of a cube: an index in `[0, 6)`.  The Python constructor asserts
`0 <= index < 6`; the `Fin 6` field carries that invariant. -/
structure Face where
  index : Fin 6
deriving DecidableEq, Repr

/-- `Face.opposite`: the opposite face, `(index + 3) % 6`. -/
def Face.opposite (f : Face) : Face :=
  ⟨⟨(f.index.val + 3) % 6, by omega⟩⟩

/-- `Face.is_opposite`: `(self._index + 3) % 6 == other.index`. -/
def Face.is_opposite (f g : Face) : Bool :=
  decide ((f.index.val + 3) % 6 = g.index.val)

/-- `Face.is_adjoining`: `self._index % 3 != other.index % 3`. -/
def Face.is_adjoining (f g : Face) : Bool :=
  decide (f.index.val % 3 ≠ g.index.val % 3)

/-- A direction vector in 3D space.  The Python constructor asserts the
vector is one of the six axis-aligned unit vectors; the raw triple is stored
here and the assertion is modelled by the checked constructor `mkUnit`. -/
structure Direction where
  x : Int
  y : Int
  z : Int
deriving DecidableEq, Repr

/-- The assertion in `Direction.__init__`: the vector is one of the six unit
axis vectors. -/
def Direction.isUnit (d : Direction) : Bool :=
  decide ((d.x, d.y, d.z) = (-1, 0, 0) ∨ (d.x, d.y, d.z) = (1, 0, 0) ∨
    (d.x, d.y, d.z) = (0, -1, 0) ∨ (d.x, d.y, d.z) = (0, 1, 0) ∨
    (d.x, d.y, d.z) = (0, 0, -1) ∨ (d.x, d.y, d.z) = (0, 0, 1))

/-- Checked constructor for `Direction`: models `Direction(x, y, z)` with the
constructor's `assert` (an `AssertionError` is `none`). -/
def Direction.mkUnit (x y z : Int) : Option Direction :=
  if (Direction.mk x y z).isUnit then some ⟨x, y, z⟩ else none

/-- `Direction.reverse`: `Direction(-x, -y, -z)` (the constructor re-checks
the unit-vector assertion). -/
def Direction.reverse (d : Direction) : Option Direction :=
  Direction.mkUnit (-d.x) (-d.y) (-d.z)

/-- A location in 3D space: an integer triple. -/
structure Location where
  x : Int
  y : Int
  z : Int
deriving DecidableEq, Repr

/-- `Location.__add__`: componentwise sum with a direction vector. -/
def Location.add (l : Location) (d : Direction) : Location :=
  ⟨l.x + d.x, l.y + d.y, l.z + d.z⟩

/-- `Location.__sub__`: componentwise difference producing a `Direction`
(whose constructor asserts the result is a unit axis vector). -/
def Location.sub (l o : Location) : Option Direction :=
  Direction.mkUnit (l.x - o.x) (l.y - o.y) (l.z - o.z)

/-- `Location.in_bounds`: all three coordinates in `[0, 3)`. -/
def Location.in_bounds (l : Location) : Bool :=
  decide (0 ≤ l.x ∧ l.x < 3 ∧ 0 ≤ l.y ∧ l.y < 3 ∧ 0 ≤ l.z ∧ l.z < 3)

/-- A cube orientation: the faces pointing in the `-x`, `-y`, `-z`
directions.  The Python constructor asserts the three faces are pairwise
adjoining; the raw triple is stored and the assertion is modelled by the
checked constructor `mkChecked` and the predicate `wf`. -/
structure Orientation where
  neg_x_face : Face
  neg_y_face : Face
  neg_z_face : Face
deriving DecidableEq, Repr

/-- The assertions in `Orientation.__init__`: the three stored faces are
pairwise adjoining. -/
def Orientation.wf (o : Orientation) : Bool :=
  o.neg_x_face.is_adjoining o.neg_y_face &&
  o.neg_x_face.is_adjoining o.neg_z_face &&
  o.neg_y_face.is_adjoining o.neg_z_face

/-- Checked constructor for `Orientation`: models `Orientation(a, b, c)` with
the constructor's asserts (an `AssertionError` is `none`). -/
def Orientation.mkChecked (a b c : Face) : Option Orientation :=
  if (Orientation.mk a b c).wf then some ⟨a, b, c⟩ else none

/-- `Orientation.x_face`: the face pointing `+x` (opposite of `neg_x_face`). -/
def Orientation.x_face (o : Orientation) : Face := o.neg_x_face.opposite

/-- `Orientation.y_face`: the face pointing `+y` (opposite of `neg_y_face`). -/
def Orientation.y_face (o : Orientation) : Face := o.neg_y_face.opposite

/-- `Orientation.z_face`: the face pointing `+z` (opposite of `neg_z_face`). -/
def Orientation.z_face (o : Orientation) : Face := o.neg_z_face.opposite

/-- Does `f` occur among the six faces assigned by this orientation?  This is
the domain on which `face_direction` does not raise. -/
def Orientation.has_face (o : Orientation) (f : Face) : Bool :=
  f = o.neg_x_face || f = o.x_face || f = o.neg_y_face || f = o.y_face ||
  f = o.neg_z_face || f = o.z_face

/-- `Orientation.face_direction`: the direction a face points toward; raises
(`none`) when the face is not among the six assigned faces.  The six returned
directions are unit literals, so the `Direction` constructor assert holds. -/
def Orientation.face_direction (o : Orientation) (face : Face) : Option Direction :=
  if face = o.neg_x_face then some ⟨-1, 0, 0⟩
  else if face = o.x_face then some ⟨1, 0, 0⟩
  else if face = o.neg_y_face then some ⟨0, -1, 0⟩
  else if face = o.y_face then some ⟨0, 1, 0⟩
  else if face = o.neg_z_face then some ⟨0, 0, -1⟩
  else if face = o.z_face then some ⟨0, 0, 1⟩
  else none

/-- `Orientation.right_hand_rotate`: rotate 90 degrees about the axis through
`axis_face` and its opposite; raises (`none`) when `axis_face` is not among
the six assigned faces.  The result is built with the checked `Orientation`
constructor, since Python re-runs the class asserts. -/
def Orientation.right_hand_rotate (o : Orientation) (axis_face : Face) : Option Orientation :=
  if axis_face = o.neg_x_face ∨ axis_face = o.x_face then
    Orientation.mkChecked o.neg_x_face o.neg_z_face o.y_face
  else if axis_face = o.neg_y_face ∨ axis_face = o.y_face then
    Orientation.mkChecked o.z_face o.neg_y_face o.neg_x_face
  else if axis_face = o.neg_z_face ∨ axis_face = o.z_face then
    Orientation.mkChecked o.neg_y_face o.x_face o.neg_z_face
  else none

/-- The 27-entry connection table `FACES_TO_NEIGHBORS`: entry `i` is
`(face of cube i connected to cube i-1, face of cube i connected to cube i+1)`. -/
def FACES_TO_NEIGHBORS : List (Option Face × Option Face) :=
  [ (none, some ⟨3⟩),
    (some ⟨0⟩, some ⟨3⟩),
    (some ⟨0⟩, some ⟨1⟩),
    (some ⟨0⟩, some ⟨3⟩),
    (some ⟨0⟩, some ⟨1⟩),
    (some ⟨0⟩, some ⟨3⟩),
    (some ⟨0⟩, some ⟨1⟩),
    (some ⟨0⟩, some ⟨3⟩),
    (some ⟨0⟩, some ⟨1⟩),
    (some ⟨0⟩, some ⟨1⟩),
    (some ⟨0⟩, some ⟨1⟩),
    (some ⟨0⟩, some ⟨1⟩),
    (some ⟨0⟩, some ⟨3⟩),
    (some ⟨0⟩, some ⟨1⟩),
    (some ⟨0⟩, some ⟨3⟩),
    (some ⟨0⟩, some ⟨1⟩),
    (some ⟨0⟩, some ⟨1⟩),
    (some ⟨0⟩, some ⟨1⟩),
    (some ⟨0⟩, some ⟨3⟩),
    (some ⟨0⟩, some ⟨1⟩),
    (some ⟨0⟩, some ⟨1⟩),
    (some ⟨0⟩, some ⟨3⟩),
    (some ⟨0⟩, some ⟨1⟩),
    (some ⟨0⟩, some ⟨1⟩),
    (some ⟨0⟩, some ⟨1⟩),
    (some ⟨0⟩, some ⟨3⟩),
    (some ⟨0⟩, none) ]

/-- `face0_towards`: a fixed orientation whose face 0 points in the given
direction; raises (`none`) on a non-unit direction.  All six literal results
satisfy the `Orientation` constructor asserts. -/
def face0_towards (direction : Direction) : Option Orientation :=
  if direction = ⟨-1, 0, 0⟩ then some ⟨⟨0⟩, ⟨1⟩, ⟨2⟩⟩
  else if direction = ⟨1, 0, 0⟩ then some ⟨⟨3⟩, ⟨5⟩, ⟨4⟩⟩
  else if direction = ⟨0, -1, 0⟩ then some ⟨⟨2⟩, ⟨0⟩, ⟨1⟩⟩
  else if direction = ⟨0, 1, 0⟩ then some ⟨⟨4⟩, ⟨3⟩, ⟨5⟩⟩
  else if direction = ⟨0, 0, -1⟩ then some ⟨⟨1⟩, ⟨2⟩, ⟨0⟩⟩
  else if direction = ⟨0, 0, 1⟩ then some ⟨⟨5⟩, ⟨4⟩, ⟨3⟩⟩
  else none

/-- The value a call to `dfs` produces in Python: `True` on success, `False`
from the two prune paths, `None` when the function falls off the end after
exhausting its orientation candidates. -/
inductive PyVal where
  | vTrue
  | vFalse
  | vNone
deriving DecidableEq, Repr

/-- Truthiness of a `dfs` return value as the Python callers test it. -/
def PyVal.toBool : PyVal → Bool
  | .vTrue => true
  | .vFalse => false
  | .vNone => false

/-- The global mutable state of the search: the parallel placement stacks
`LOCATIONS` and `ORIENTATIONS`. -/
structure State where
  LOCATIONS : List Location
  ORIENTATIONS : List Orientation
deriving DecidableEq, Repr

/-- The empty starting state. -/
def State.empty : State := ⟨[], []⟩

/-- `LOCATIONS.append(l)`. -/
def State.pushLoc (s : State) (l : Location) : State :=
  { s with LOCATIONS := s.LOCATIONS ++ [l] }

/-- `ORIENTATIONS.append(o)`. -/
def State.pushOrient (s : State) (o : Orientation) : State :=
  { s with ORIENTATIONS := s.ORIENTATIONS ++ [o] }

/-- `LOCATIONS.pop()`: raises (`none`) on an empty list. -/
def State.popLoc (s : State) : Option State :=
  if s.LOCATIONS = [] then none
  else some { s with LOCATIONS := s.LOCATIONS.dropLast }

/-- `ORIENTATIONS.pop()`: raises (`none`) on an empty list. -/
def State.popOrient (s : State) : Option State :=
  if s.ORIENTATIONS = [] then none
  else some { s with ORIENTATIONS := s.ORIENTATIONS.dropLast }

/-- The candidate-orientation construction in `dfs`:
`orientations = [orientation]`, then, when `face_to_next` is present and not
opposite to `face_to_prev`, three further candidates obtained by repeatedly
applying `right_hand_rotate(face_to_prev)` to the previous one. -/
def buildOrientations (orientation : Orientation) (face_to_prev : Face)
    (face_to_next : Option Face) : Option (List Orientation) :=
  match face_to_next with
  | none => some [orientation]
  | some f =>
    if face_to_prev.is_opposite f then some [orientation]
    else
      (orientation.right_hand_rotate face_to_prev).bind fun o1 =>
      (o1.right_hand_rotate face_to_prev).bind fun o2 =>
      (o2.right_hand_rotate face_to_prev).bind fun o3 =>
      some [orientation, o1, o2, o3]

/-- Outcome of the straight-line prefix of a `dfs` step (everything before
the candidate loop): an escaping exception, an early `return False` from one
of the two prunes, or the computed location and candidate list. -/
inductive StepPrep where
  | err
  | prune
  | go (curr_location : Location) (orientations : List Orientation)
deriving DecidableEq, Repr

/-- The straight-line prefix of a `dfs` step for `1 <= cube_index <= 26`:
read the connection faces (asserting `face_to_prev == Face(0)`), read the
previous cube's state, compute `curr_location`, prune on out-of-bounds or
collision, and otherwise build the candidate orientation list. -/
def dfsPrep (cube_index : Nat) (s : State) : StepPrep :=
  match FACES_TO_NEIGHBORS[cube_index]? with
  | none => .err
  | some (ftp, face_to_next) =>
    match ftp with
    | none => .err
    | some face_to_prev =>
      if face_to_prev = (⟨0⟩ : Face) then
        match s.LOCATIONS[cube_index - 1]?, s.ORIENTATIONS[cube_index - 1]? with
        | some prev_location, some prev_orientation =>
          match FACES_TO_NEIGHBORS[cube_index - 1]? with
          | some (_, some prev_face_to_curr) =>
            match prev_orientation.face_direction prev_face_to_curr with
            | some direction =>
              let curr_location := prev_location.add direction
              if curr_location.in_bounds then
                if curr_location ∈ s.LOCATIONS then .prune
                else
                  match direction.reverse with
                  | some reverse_direction =>
                    match face0_towards reverse_direction with
                    | some orientation =>
                      match buildOrientations orientation face_to_prev face_to_next with
                      | some orients => .go curr_location orients
                      | none => .err
                    | none => .err
                  | none => .err
              else .prune
            | none => .err
          | _ => .err
        | _, _ => .err
      else .err

/-- The candidate loop of `dfs`: for each orientation push it, recurse via
`next`, return `True` on success, otherwise pop it and continue; when the
candidates are exhausted pop `curr_location` (already pushed by the caller)
and fall off the end returning `None`. -/
def dfsLoop (next : State → Option (PyVal × State)) :
    List Orientation → State → Option (PyVal × State)
  | [], s =>
    match s.popLoc with
    | none => none
    | some s2 => some (PyVal.vNone, s2)
  | o :: rest, s =>
    match next (s.pushOrient o) with
    | none => none
    | some (v, s2) =>
      if v.toBool then some (PyVal.vTrue, s2)
      else
        match s2.popOrient with
        | none => none
        | some s3 => dfsLoop next rest s3

/-- One `dfs` step, parametrised by the recursive call `next` for
`cube_index + 1`: the entry assert, the success test at 27, the straight-line
prefix, the push of `curr_location`, and the candidate loop. -/
def dfsBody (next : State → Option (PyVal × State)) (cube_index : Nat)
    (s : State) : Option (PyVal × State) :=
  if 0 < cube_index ∧ cube_index ≤ 27 then
    if cube_index = 27 then some (PyVal.vTrue, s)
    else
      match dfsPrep cube_index s with
      | .err => none
      | .prune => some (PyVal.vFalse, s)
      | .go curr_location orients =>
        dfsLoop next orients (s.pushLoc curr_location)
  else none

/-- `dfs`, with an explicit fuel bounding the recursion depth; running out of
fuel yields `none`.  The fuel-stabilisation theorem below shows any fuel of
at least `28 - cube_index` gives the same result. -/
def dfs : Nat → Nat → State → Option (PyVal × State)
  | 0, _, _ => none
  | fuel + 1, cube_index, s => dfsBody (dfs fuel (cube_index + 1)) cube_index s

/-- The fixed orientation `Orientation(Face(0), Face(1), Face(2))` the driver
gives cube 0. -/
def startOrientation : Orientation := ⟨⟨0⟩, ⟨1⟩, ⟨2⟩⟩

/-- The `(y, z)` iteration order of `main`'s two nested `range(2)` loops. -/
def mainPairs : List (Nat × Nat) :=
  (List.range 2).flatMap fun y => (List.range 2).map fun z => (y, z)

/-- The body of `main`'s nested loops over the starting placements: assert
both stacks empty, place cube 0 at `(0, y, z)` with `startOrientation`, run
`dfs(1)`, return on success (leaving the solution on the stacks), otherwise
pop cube 0 and continue; falling out of the loops ends `main` with the state
as it stands. -/
def mainLoop (fuel : Nat) : List (Nat × Nat) → State → Option State
  | [], s => some s
  | (y, z) :: rest, s =>
    if s.LOCATIONS.length = 0 then
      if s.ORIENTATIONS.length = 0 then
        match dfs fuel 1 ((s.pushLoc ⟨0, (y : Int), (z : Int)⟩).pushOrient startOrientation) with
        | none => none
        | some (v, s2) =>
          if v.toBool then some s2
          else
            match s2.popLoc with
            | none => none
            | some s3 =>
              match s3.popOrient with
              | none => none
              | some s4 => mainLoop fuel rest s4
      else none
    else none

/-- The driver `main`: run the per-placement body over the four starting
placements, starting from empty stacks. -/
def main (fuel : Nat) : Option State :=
  mainLoop fuel mainPairs State.empty

deriving instance Fintype for Face
deriving instance Fintype for Orientation

/-- The joint consistency condition between cubes `i` and `i + 1` of a
placement: `ORIENTATIONS[i].face_direction(face_to_next[i])` equals
`LOCATIONS[i+1] - LOCATIONS[i]` (and that difference is a unit vector). -/
def chainAt (s : State) (i : Nat) : Bool :=
  match s.ORIENTATIONS[i]?, FACES_TO_NEIGHBORS[i]?, s.LOCATIONS[i]?, s.LOCATIONS[i + 1]? with
  | some oi, some (_, some f), some li, some li1 =>
    decide (oi.face_direction f = li1.sub li) && (li1.sub li).isSome
  | _, _, _, _ => false

/-- The data-model invariant of a placement prefix of length `k`: both stacks
hold `k` entries, all placed locations are pairwise distinct and inside the
`[0,3)^3` grid, and every consecutive pair of cubes satisfies the joint
condition `chainAt`. -/
def validState (k : Nat) (s : State) : Prop :=
  s.LOCATIONS.length = k ∧ s.ORIENTATIONS.length = k ∧
  s.LOCATIONS.Nodup ∧ (∀ l ∈ s.LOCATIONS, l.in_bounds = true) ∧
  (∀ i, i < k - 1 → chainAt s i = true)

instance (k : Nat) (s : State) : Decidable (validState k s) := by
  unfold validState; infer_instance

/-- A well-formed search state of depth `k`: both stacks hold `k` entries and
every placed orientation satisfies the `Orientation` class invariant. -/
def wfState (k : Nat) (s : State) : Prop :=
  s.LOCATIONS.length = k ∧ s.ORIENTATIONS.length = k ∧
  (∀ o ∈ s.ORIENTATIONS, o.wf = true)

instance (k : Nat) (s : State) : Decidable (wfState k s) := by
  unfold wfState; infer_instance

/-- Modelled from the spec (orientation enumerator, section 4.3): the
candidate list is the base candidate alone when `face_to_next` is absent or
opposite to `face_to_prev`, and otherwise the base candidate followed by its
images under one, two and three applications of
`right_hand_rotate(face_to_prev)`, in that order. -/
def candidatesSpec (base : Orientation) (face_to_prev : Face)
    (face_to_next : Option Face) : Option (List Orientation) :=
  match face_to_next with
  | none => some [base]
  | some f =>
    if face_to_prev.is_opposite f then some [base]
    else
      match base.right_hand_rotate face_to_prev with
      | none => none
      | some o1 =>
        match o1.right_hand_rotate face_to_prev with
        | none => none
        | some o2 =>
          match o2.right_hand_rotate face_to_prev with
          | none => none
          | some o3 => some [base, o1, o2, o3]

/-- Modelled from the spec (driver, section 4.5): the starting state placing
cube 0 at `(0, y, z)` with the fixed canonical orientation. -/
def startState (y z : Int) : State :=
  ⟨[⟨0, y, z⟩], [startOrientation]⟩

/-- Modelled from the spec (driver, section 4.5): invoke the search at cube
index 1 once per starting placement and stop at the first one for which the
search succeeds; when all are exhausted the stacks are left empty. -/
def firstSuccess (fuel : Nat) : List (Int × Int) → Option State
  | [] => some State.empty
  | (y, z) :: rest =>
    match dfs fuel 1 (startState y z) with
    | none => none
    | some (v, s) => if v.toBool then some s else firstSuccess fuel rest

/-- The four starting placements the spec says the driver tries, in order. -/
def driverPlacements : List (Int × Int) := [(0, 0), (0, 1), (1, 0), (1, 1)]

/-- A state from which `dfs 1` prunes immediately: cube 0's orientation sends
face 3 toward `-x`, so cube 1's location `(-1,0,0)` is out of bounds. -/
def sPrune : State := ⟨[⟨0, 0, 0⟩], [⟨⟨3⟩, ⟨5⟩, ⟨4⟩⟩]⟩

/-- A state from which `dfs 1` exhausts its single candidate: cube 1 goes to
`(2,0,0)`, and from there cube 2 would leave the grid, so the one candidate
orientation fails and `dfs` falls off the end of the loop. -/
def sExhaust : State := ⟨[⟨1, 0, 0⟩], [⟨⟨0⟩, ⟨1⟩, ⟨2⟩⟩]⟩

/-- The solution state the program actually reaches: the contents of the two
placement stacks at the moment `dfs(27)` reports success when the driver is
run on the first starting placement `(0, 0, 0)`. -/
def wSolState : State :=
  ⟨[⟨0, 0, 0⟩, ⟨1, 0, 0⟩, ⟨2, 0, 0⟩, ⟨2, 0, 1⟩, ⟨2, 0, 2⟩, ⟨1, 0, 2⟩,
    ⟨0, 0, 2⟩, ⟨0, 1, 2⟩, ⟨0, 2, 2⟩, ⟨1, 2, 2⟩, ⟨1, 1, 2⟩, ⟨2, 1, 2⟩,
    ⟨2, 1, 1⟩, ⟨2, 1, 0⟩, ⟨1, 1, 0⟩, ⟨0, 1, 0⟩, ⟨0, 2, 0⟩, ⟨0, 2, 1⟩,
    ⟨0, 1, 1⟩, ⟨0, 0, 1⟩, ⟨1, 0, 1⟩, ⟨1, 1, 1⟩, ⟨1, 2, 1⟩, ⟨1, 2, 0⟩,
    ⟨2, 2, 0⟩, ⟨2, 2, 1⟩, ⟨2, 2, 2⟩],
   [⟨⟨0⟩, ⟨1⟩, ⟨2⟩⟩, ⟨⟨0⟩, ⟨1⟩, ⟨2⟩⟩, ⟨⟨0⟩, ⟨2⟩, ⟨4⟩⟩, ⟨⟨1⟩, ⟨2⟩, ⟨0⟩⟩,
    ⟨⟨1⟩, ⟨2⟩, ⟨0⟩⟩, ⟨⟨3⟩, ⟨5⟩, ⟨4⟩⟩, ⟨⟨3⟩, ⟨4⟩, ⟨2⟩⟩, ⟨⟨2⟩, ⟨0⟩, ⟨1⟩⟩,
    ⟨⟨4⟩, ⟨0⟩, ⟨2⟩⟩, ⟨⟨0⟩, ⟨1⟩, ⟨2⟩⟩, ⟨⟨4⟩, ⟨3⟩, ⟨5⟩⟩, ⟨⟨0⟩, ⟨5⟩, ⟨1⟩⟩,
    ⟨⟨5⟩, ⟨4⟩, ⟨3⟩⟩, ⟨⟨1⟩, ⟨5⟩, ⟨3⟩⟩, ⟨⟨3⟩, ⟨5⟩, ⟨4⟩⟩, ⟨⟨3⟩, ⟨4⟩, ⟨2⟩⟩,
    ⟨⟨5⟩, ⟨0⟩, ⟨4⟩⟩, ⟨⟨5⟩, ⟨1⟩, ⟨0⟩⟩, ⟨⟨4⟩, ⟨3⟩, ⟨5⟩⟩, ⟨⟨4⟩, ⟨3⟩, ⟨5⟩⟩,
    ⟨⟨0⟩, ⟨4⟩, ⟨5⟩⟩, ⟨⟨2⟩, ⟨0⟩, ⟨1⟩⟩, ⟨⟨2⟩, ⟨0⟩, ⟨1⟩⟩, ⟨⟨4⟩, ⟨2⟩, ⟨3⟩⟩,
    ⟨⟨0⟩, ⟨2⟩, ⟨4⟩⟩, ⟨⟨1⟩, ⟨2⟩, ⟨0⟩⟩, ⟨⟨1⟩, ⟨2⟩, ⟨0⟩⟩]⟩

/-! ## Basic facts about the geometry primitives -/

set_option maxRecDepth 10000

/-- Every direction satisfying the constructor's unit-vector assert is one of
the six axis literals. -/
lemma unit_dir_cases (d : Direction) (h : d.isUnit = true) :
    d = ⟨-1, 0, 0⟩ ∨ d = ⟨1, 0, 0⟩ ∨ d = ⟨0, -1, 0⟩ ∨ d = ⟨0, 1, 0⟩ ∨
    d = ⟨0, 0, -1⟩ ∨ d = ⟨0, 0, 1⟩ := by
  rcases d with ⟨x, y, z⟩
  simp only [Direction.isUnit, Prod.mk.injEq, decide_eq_true_eq] at h
  simp only [Direction.mk.injEq]
  tauto

/-- `face_direction` only ever returns unit directions. -/
lemma face_direction_all_unit :
    ∀ (o : Orientation) (f : Face), (o.face_direction f).all Direction.isUnit = true := by
  decide

/-- A direction returned by `face_direction` is a unit vector. -/
lemma face_direction_unit {o : Orientation} {f : Face} {d : Direction}
    (h : o.face_direction f = some d) : d.isUnit = true := by
  have h2 := face_direction_all_unit o f
  rw [h] at h2
  simpa using h2

/-- On a well-formed orientation, `face_direction` never raises. -/
lemma wf_face_direction_isSome :
    ∀ (o : Orientation) (f : Face), o.wf = true →
    (o.face_direction f).isSome = true := by
  decide

/-- On a well-formed orientation, `right_hand_rotate` never raises and its
result is again well-formed, whichever face is used as the axis. -/
lemma rhr_any_wf :
    ∀ (o : Orientation) (f : Face), o.wf = true →
    (o.right_hand_rotate f).any Orientation.wf = true := by
  decide

/-- Existential form of `rhr_any_wf`. -/
lemma rhr_some_wf (o : Orientation) (f : Face) (h : o.wf = true) :
    ∃ o2, o.right_hand_rotate f = some o2 ∧ o2.wf = true := by
  have h2 := rhr_any_wf o f h
  cases heq : o.right_hand_rotate f with
  | none => rw [heq] at h2; simp [Option.any] at h2
  | some o2 => rw [heq] at h2; exact ⟨o2, rfl, by simpa [Option.any] using h2⟩

/-- `face0_towards` on a unit direction returns a well-formed orientation
whose face 0 points in that direction. -/
lemma face0_towards_spec (d : Direction) (h : d.isUnit = true) :
    ∃ o, face0_towards d = some o ∧ o.wf = true ∧
      o.face_direction ⟨0⟩ = some d := by
  rcases unit_dir_cases d h with rfl | rfl | rfl | rfl | rfl | rfl <;>
    exact ⟨_, rfl, by decide, by decide⟩

/-- Reversing a unit direction never raises and yields a unit direction. -/
lemma reverse_unit (d : Direction) (h : d.isUnit = true) :
    ∃ d2, d.reverse = some d2 ∧ d2.isUnit = true := by
  rcases unit_dir_cases d h with rfl | rfl | rfl | rfl | rfl | rfl <;>
    exact ⟨_, rfl, by decide⟩

/-- On a well-formed base orientation the candidate construction in `dfs`
never raises, agrees with the spec's description of the orientation
enumerator, and produces 1 or 4 candidates according to the connector
faces. -/
lemma buildOrientations_eq_spec (o : Orientation) (ftp : Face)
    (ftn : Option Face) (hwf : o.wf = true) :
    buildOrientations o ftp ftn = candidatesSpec o ftp ftn ∧
    (candidatesSpec o ftp ftn).map List.length =
      some (match ftn with
            | none => 1
            | some f => if ftp.is_opposite f then 1 else 4) := by
  obtain ⟨o1, h1, hw1⟩ := rhr_some_wf o ftp hwf
  obtain ⟨o2, h2, hw2⟩ := rhr_some_wf o1 ftp hw1
  obtain ⟨o3, h3, _⟩ := rhr_some_wf o2 ftp hw2
  cases ftn with
  | none => simp [buildOrientations, candidatesSpec]
  | some f =>
    by_cases hop : ftp.is_opposite f <;>
      simp [buildOrientations, candidatesSpec, hop, h1, h2, h3]

/-- Every candidate produced by `buildOrientations` from a well-formed base
is well-formed, and the list is returned (no exception) and non-empty. -/
lemma buildOrientations_wf (o : Orientation) (ftp : Face)
    (ftn : Option Face) (hwf : o.wf = true) :
    ∃ l, buildOrientations o ftp ftn = some l ∧ l ≠ [] ∧
      ∀ o2 ∈ l, o2.wf = true := by
  obtain ⟨o1, h1, hw1⟩ := rhr_some_wf o ftp hwf
  obtain ⟨o2, h2, hw2⟩ := rhr_some_wf o1 ftp hw1
  obtain ⟨o3, h3, hw3⟩ := rhr_some_wf o2 ftp hw2
  cases ftn with
  | none => exact ⟨[o], by simp [buildOrientations], by simp, by simp [hwf]⟩
  | some f =>
    by_cases hop : ftp.is_opposite f
    · exact ⟨[o], by simp [buildOrientations, hop], by simp, by simp [hwf]⟩
    · refine ⟨[o, o1, o2, o3], by simp [buildOrientations, hop, h1, h2, h3], by simp, ?_⟩
      intro o4 h4
      simp only [List.mem_cons, List.not_mem_nil, or_false] at h4
      rcases h4 with rfl | rfl | rfl | rfl <;> assumption

/-! ## Claims about the geometry primitives -/

/-- C2, counterexample to the claim as stated: for the well-formed
orientation with faces 0, 1, 2 at `-x`, `-y`, `-z` and axis face 0 (which
lies on its x-axis pair), the claim says the face that was pointing `-y`
(face 1) ends up pointing `-z`; the code sends it to `+z` instead. -/
theorem claim_C2_counterexample :
    startOrientation.wf = true ∧
    startOrientation.neg_x_face = (⟨0⟩ : Face) ∧
    startOrientation.neg_y_face = (⟨1⟩ : Face) ∧
    ¬ ((startOrientation.right_hand_rotate ⟨0⟩).bind
        (fun R => R.face_direction ⟨1⟩) = some ⟨0, 0, -1⟩) ∧
    ((startOrientation.right_hand_rotate ⟨0⟩).bind
        (fun R => R.face_direction ⟨1⟩)) = some ⟨0, 0, 1⟩ := by
  decide

/-- C2 (amended): for every well-formed orientation `O` and axis face `a`,
`right_hand_rotate a` keeps the two face assignments of `a`'s axis and
permutes the other two axes' assignments cyclically, but in the direction
opposite to the one the claim states: about the x-axis it sends the face
pointing `-y` to `+z`, `+z` to `+y`, `+y` to `-z`, and `-z` to `-y`;
analogously (cyclically) about the y and z axes. -/
theorem claim_C2_rotation_cycles :
    ∀ (O : Orientation) (a : Face), O.wf = true →
    ((a = O.neg_x_face ∨ a = O.x_face) →
      (O.right_hand_rotate a).map Orientation.neg_x_face = some O.neg_x_face ∧
      (O.right_hand_rotate a).map Orientation.x_face = some O.x_face ∧
      ((O.right_hand_rotate a).bind fun R => R.face_direction O.neg_y_face) = some ⟨0, 0, 1⟩ ∧
      ((O.right_hand_rotate a).bind fun R => R.face_direction O.z_face) = some ⟨0, 1, 0⟩ ∧
      ((O.right_hand_rotate a).bind fun R => R.face_direction O.y_face) = some ⟨0, 0, -1⟩ ∧
      ((O.right_hand_rotate a).bind fun R => R.face_direction O.neg_z_face) = some ⟨0, -1, 0⟩) ∧
    ((a = O.neg_y_face ∨ a = O.y_face) →
      (O.right_hand_rotate a).map Orientation.neg_y_face = some O.neg_y_face ∧
      (O.right_hand_rotate a).map Orientation.y_face = some O.y_face ∧
      ((O.right_hand_rotate a).bind fun R => R.face_direction O.neg_z_face) = some ⟨1, 0, 0⟩ ∧
      ((O.right_hand_rotate a).bind fun R => R.face_direction O.x_face) = some ⟨0, 0, 1⟩ ∧
      ((O.right_hand_rotate a).bind fun R => R.face_direction O.z_face) = some ⟨-1, 0, 0⟩ ∧
      ((O.right_hand_rotate a).bind fun R => R.face_direction O.neg_x_face) = some ⟨0, 0, -1⟩) ∧
    ((a = O.neg_z_face ∨ a = O.z_face) →
      (O.right_hand_rotate a).map Orientation.neg_z_face = some O.neg_z_face ∧
      (O.right_hand_rotate a).map Orientation.z_face = some O.z_face ∧
      ((O.right_hand_rotate a).bind fun R => R.face_direction O.neg_x_face) = some ⟨0, 1, 0⟩ ∧
      ((O.right_hand_rotate a).bind fun R => R.face_direction O.y_face) = some ⟨1, 0, 0⟩ ∧
      ((O.right_hand_rotate a).bind fun R => R.face_direction O.x_face) = some ⟨0, -1, 0⟩ ∧
      ((O.right_hand_rotate a).bind fun R => R.face_direction O.neg_y_face) = some ⟨-1, 0, 0⟩) := by
  decide

/-- C2, witness: the amended theorem applied to the orientation with faces
0, 1, 2 at `-x`, `-y`, `-z` and axis face 0. -/
theorem claim_C2_witness :
    ((startOrientation.right_hand_rotate ⟨0⟩).bind
      fun R => R.face_direction startOrientation.neg_y_face) = some ⟨0, 0, 1⟩ :=
  ((claim_C2_rotation_cycles startOrientation ⟨0⟩ (by decide)).1 (by decide)).2.2.1

/-- C7: applying `right_hand_rotate` four times about the same axis face of
a well-formed orientation returns the original orientation. -/
theorem claim_C7_rotate_four_id :
    ∀ (O : Orientation) (a : Face), O.wf = true → O.has_face a = true →
    ((O.right_hand_rotate a).bind fun o1 =>
     (o1.right_hand_rotate a).bind fun o2 =>
     (o2.right_hand_rotate a).bind fun o3 =>
      o3.right_hand_rotate a) = some O := by
  decide

/-- C7, witness: four rotations about face 0 return the canonical start
orientation. -/
theorem claim_C7_witness :
    ((startOrientation.right_hand_rotate ⟨0⟩).bind fun o1 =>
     (o1.right_hand_rotate ⟨0⟩).bind fun o2 =>
     (o2.right_hand_rotate ⟨0⟩).bind fun o3 =>
      o3.right_hand_rotate ⟨0⟩) = some startOrientation :=
  claim_C7_rotate_four_id startOrientation ⟨0⟩ (by decide) (by decide)

/-- C8: for each of the six unit directions `d`, `face0_towards d` returns a
well-formed orientation whose face 0 points in direction `d`. -/
theorem claim_C8_face0_towards :
    ∀ (d : Direction), d.isUnit = true →
    ∃ o, face0_towards d = some o ∧ o.wf = true ∧
      o.face_direction ⟨0⟩ = some d :=
  face0_towards_spec

/-- C8, witness: the `+x` direction. -/
theorem claim_C8_witness :
    ∃ o, face0_towards ⟨1, 0, 0⟩ = some o ∧ o.wf = true ∧
      o.face_direction ⟨0⟩ = some ⟨1, 0, 0⟩ :=
  claim_C8_face0_towards ⟨1, 0, 0⟩ (by decide)

/-- C10: on a well-formed orientation, opposite faces point in exactly
opposite directions: `face_direction` is defined on every assigned face and
`face_direction (f.opposite)` is the reverse of `face_direction f`. -/
theorem claim_C10_opposite_faces :
    ∀ (O : Orientation) (f : Face), O.wf = true → O.has_face f = true →
    (O.face_direction f).isSome = true ∧
    O.face_direction f.opposite = (O.face_direction f).bind Direction.reverse := by
  decide

/-- C10, witness: face 1 of the canonical start orientation. -/
theorem claim_C10_witness :
    (startOrientation.face_direction ⟨1⟩).isSome = true ∧
    startOrientation.face_direction (Face.opposite ⟨1⟩) =
      (startOrientation.face_direction ⟨1⟩).bind Direction.reverse :=
  claim_C10_opposite_faces startOrientation ⟨1⟩ (by decide) (by decide)

/-- C3: for every cube index `k` in `1..26` and every base candidate built by
`face0_towards` from a unit direction, the candidate list built in `dfs`
matches the spec's enumerator description: exactly one candidate when
`face_to_next` is absent or opposite to `face_to_prev`, and otherwise exactly
four, namely the base followed by its images under one, two and three
applications of `right_hand_rotate (face_to_prev)`, in that order. -/
theorem claim_C3_candidate_list :
    ∀ (k : Nat) (d : Direction) (base : Orientation) (ftp : Face)
      (ftn : Option Face),
    1 ≤ k → k ≤ 26 →
    FACES_TO_NEIGHBORS[k]? = some (some ftp, ftn) →
    d.isUnit = true → face0_towards d = some base →
    buildOrientations base ftp ftn = candidatesSpec base ftp ftn ∧
    (candidatesSpec base ftp ftn).map List.length =
      some (match ftn with
            | none => 1
            | some f => if ftp.is_opposite f then 1 else 4) := by
  intro k d base ftp ftn _ _ _ hunit hft
  obtain ⟨o, ho, hwf, _⟩ := face0_towards_spec d hunit
  rw [hft] at ho
  obtain rfl : base = o := by injection ho
  exact buildOrientations_eq_spec _ ftp ftn hwf

/-- C3, witness: cube 2 (whose `face_to_next` is face 1, not opposite to
face 0) with the base candidate for direction `-x`; the enumerator returns
four candidates. -/
theorem claim_C3_witness :
    buildOrientations startOrientation ⟨0⟩ (some ⟨1⟩) =
      candidatesSpec startOrientation ⟨0⟩ (some ⟨1⟩) ∧
    (candidatesSpec startOrientation ⟨0⟩ (some ⟨1⟩)).map List.length =
      some (if Face.is_opposite ⟨0⟩ ⟨1⟩ then 1 else 4) :=
  claim_C3_candidate_list 2 ⟨-1, 0, 0⟩ startOrientation ⟨0⟩ (some ⟨1⟩)
    (by decide) (by decide) (by decide) (by decide) (by decide)

/-! ## Stack discipline of the search -/

/-- Popping immediately after a push restores the location stack. -/
lemma pushLoc_popLoc (s : State) (l : Location) :
    (s.pushLoc l).popLoc = some s := by
  simp [State.pushLoc, State.popLoc]

/-- Popping immediately after a push restores the orientation stack. -/
lemma pushOrient_popOrient (s : State) (o : Orientation) :
    (s.pushOrient o).popOrient = some s := by
  simp [State.pushOrient, State.popOrient]

/-- If every recursive call restores the state on failure, then a full pass
of the candidate loop that ends in failure pops exactly the location its
caller pushed. -/
lemma dfsLoop_restore (next : State → Option (PyVal × State))
    (hnext : ∀ u v u', next u = some (v, u') → v.toBool = false → u' = u) :
    ∀ (os : List Orientation) (t : State) (v : PyVal) (s' : State),
    dfsLoop next os t = some (v, s') → v.toBool = false → t.popLoc = some s' := by
  intro os
  induction os with
  | nil =>
    intro t v s' h _
    unfold dfsLoop at h
    split at h
    · exact absurd h (by simp)
    · rename_i s2 hp
      injection h with h1
      injection h1 with h2 h3
      rw [hp, h3]
  | cons o rest ih =>
    intro t v s' h hv
    unfold dfsLoop at h
    split at h
    · exact absurd h (by simp)
    · rename_i v1 s2 hnx
      split at h
      · rename_i hv1
        injection h with h1
        injection h1 with h2 h3
        subst h2
        simp [PyVal.toBool] at hv
      · rename_i hv1
        have h2 : s2 = t.pushOrient o :=
          hnext _ _ _ hnx (by simpa using hv1)
        subst h2
        rw [pushOrient_popOrient] at h
        exact ih t v s' h hv

/-- Backtracking restores the state: whenever `dfs` returns a falsy value,
the stacks are exactly as they were before the call. -/
lemma dfs_restore : ∀ (fuel k : Nat) (s : State) (v : PyVal) (s' : State),
    dfs fuel k s = some (v, s') → v.toBool = false → s' = s := by
  intro fuel
  induction fuel with
  | zero =>
    intro k s v s' h
    exact absurd h (by simp [dfs])
  | succ f ih =>
    intro k s v s' h hv
    have hb : dfsBody (dfs f (k + 1)) k s = some (v, s') := h
    unfold dfsBody at hb
    split at hb
    · split at hb
      · injection hb with h1
        injection h1 with h2 h3
        subst h2
        simp [PyVal.toBool] at hv
      · split at hb
        · exact absurd hb (by simp)
        · injection hb with h1
          injection h1 with h2 h3
          exact h3.symm
        · rename_i curr orients hprep
          have hp := dfsLoop_restore (dfs f (k + 1))
            (fun u w u' hu hw => ih (k + 1) u w u' hu hw)
            orients (s.pushLoc curr) v s' hb hv
          rw [pushLoc_popLoc] at hp
          injection hp with h2
          exact h2.symm
    · exact absurd hb (by simp)

/-- C4: a non-successful call `dfs k` leaves both placement stacks exactly
as they were before the call, whatever the (falsy) exit path. -/
theorem claim_C4_backtrack_restores :
    ∀ (fuel k : Nat) (s : State) (v : PyVal) (s' : State),
    1 ≤ k → k ≤ 26 →
    s.LOCATIONS.length = k → s.ORIENTATIONS.length = k →
    dfs fuel k s = some (v, s') → v.toBool = false →
    s'.LOCATIONS = s.LOCATIONS ∧ s'.ORIENTATIONS = s.ORIENTATIONS := by
  intro fuel k s v s' _ _ _ _ h hv
  rw [dfs_restore fuel k s v s' h hv]
  exact ⟨rfl, rfl⟩

/-- C4, witness: from `sPrune` the call `dfs 1` fails with `False` and the
stacks are untouched. -/
theorem claim_C4_witness :
    (1 ≤ 1 ∧ (1 : Nat) ≤ 26 ∧ sPrune.LOCATIONS.length = 1 ∧
      sPrune.ORIENTATIONS.length = 1 ∧
      dfs 1 1 sPrune = some (PyVal.vFalse, sPrune) ∧
      PyVal.toBool PyVal.vFalse = false) ∧
    sPrune.LOCATIONS = sPrune.LOCATIONS ∧
    sPrune.ORIENTATIONS = sPrune.ORIENTATIONS :=
  ⟨⟨le_refl 1, by decide, by decide, by decide, by decide, by decide⟩,
   claim_C4_backtrack_restores 1 1 sPrune PyVal.vFalse sPrune
     (le_refl 1) (by decide) (by decide) (by decide) (by decide) (by decide)⟩

/-! ## Termination: the result of `dfs` is independent of any sufficient fuel -/

/-- The candidate loop only depends on the recursive call pointwise. -/
lemma dfsLoop_congr (n1 n2 : State → Option (PyVal × State))
    (h : ∀ u, n1 u = n2 u) :
    ∀ (os : List Orientation) (t : State), dfsLoop n1 os t = dfsLoop n2 os t := by
  intro os
  induction os with
  | nil => intro t; rfl
  | cons o rest ih =>
    intro t
    unfold dfsLoop
    rw [h (t.pushOrient o)]
    cases n2 (t.pushOrient o) with
    | none => rfl
    | some p =>
      rcases p with ⟨v, s2⟩
      cases hv : v.toBool with
      | true => simp [hv]
      | false =>
        simp only [hv, Bool.false_eq_true, if_false]
        cases s2.popOrient with
        | none => rfl
        | some s3 => exact ih s3

/-- A `dfs` step only depends on the recursive call pointwise. -/
lemma dfsBody_congr (n1 n2 : State → Option (PyVal × State))
    (h : ∀ u, n1 u = n2 u) (k : Nat) (s : State) :
    dfsBody n1 k s = dfsBody n2 k s := by
  unfold dfsBody
  split
  · split
    · rfl
    · split
      · rfl
      · rfl
      · exact dfsLoop_congr n1 n2 h _ _
  · rfl

/-- One extra unit of fuel does not change the result once the fuel covers
the remaining recursion depth `28 - k`. -/
lemma dfs_stable_succ : ∀ (f k : Nat) (s : State), 28 ≤ f + k →
    dfs f k s = dfs (f + 1) k s := by
  intro f
  induction f with
  | zero =>
    intro k s hk
    have hn : ¬ (0 < k ∧ k ≤ 27) := by omega
    show (none : Option (PyVal × State)) = dfsBody (dfs 0 (k + 1)) k s
    unfold dfsBody
    rw [if_neg hn]
  | succ f ih =>
    intro k s hk
    show dfsBody (dfs f (k + 1)) k s = dfsBody (dfs (f + 1) (k + 1)) k s
    by_cases hk27 : 0 < k ∧ k ≤ 27
    · exact dfsBody_congr _ _ (fun u => ih (k + 1) u (by omega)) k s
    · unfold dfsBody
      simp only [if_neg hk27]

/-- Any amount of extra fuel does not change the result once the fuel covers
the remaining recursion depth. -/
lemma dfs_stable_add : ∀ (d f k : Nat) (s : State), 28 ≤ f + k →
    dfs f k s = dfs (f + d) k s := by
  intro d
  induction d with
  | zero => intro f k s _; rfl
  | succ d ih =>
    intro f k s h
    rw [ih f k s h]
    exact dfs_stable_succ (f + d) k s (by omega)

/-- C6: the search terminates.  Modelled with explicit fuel, termination is
the statement that the recursion never needs more than its depth bound: any
two fuels of at least `28 - k` (the number of cubes left to place, the
strictly decreasing measure) give the same result of `dfs k`. -/
theorem claim_C6_terminates :
    ∀ (k : Nat) (s : State) (f1 f2 : Nat),
    1 ≤ k → k ≤ 27 →
    s.LOCATIONS.length = k → s.ORIENTATIONS.length = k →
    28 - k ≤ f1 → 28 - k ≤ f2 →
    dfs f1 k s = dfs f2 k s := by
  intro k s f1 f2 _ _ _ _ h1 h2
  rcases le_total f1 f2 with h | h
  · obtain ⟨d, rfl⟩ := Nat.le.dest h
    exact dfs_stable_add d f1 k s (by omega)
  · obtain ⟨d, rfl⟩ := Nat.le.dest h
    exact (dfs_stable_add d f2 k s (by omega)).symm

/-- C6, witness: from the one-cube state `sPrune`, fuel 27 and fuel 28 agree. -/
theorem claim_C6_witness :
    dfs 27 1 sPrune = dfs 28 1 sPrune :=
  claim_C6_terminates 1 sPrune 27 28 (le_refl 1) (by decide)
    (by decide) (by decide) (by decide) (by decide)

/-! ## Evaluating one step of the search -/

/-- An element located by `getElem?` is a member of the list. -/
lemma getElem?_some_mem {α : Type} {l : List α} {i : Nat} {a : α}
    (h : l[i]? = some a) : a ∈ l := by
  obtain ⟨hlt, rfl⟩ := List.getElem?_eq_some.mp h
  exact List.getElem_mem hlt

/-- Indexing into the left part of an appended list. -/
lemma getElem?_append_left' {α : Type} {l1 l2 : List α} {i : Nat}
    (h : i < l1.length) : (l1 ++ l2)[i]? = l1[i]? := by
  rw [List.getElem?_append]
  simp [h]

/-- Every table entry for a cube index in `1..26` has `face_to_prev` equal to
face 0 (the `assert` in `dfs` always passes). -/
lemma table_entry : ∀ k, 1 ≤ k → k < 27 →
    ∃ ftn, FACES_TO_NEIGHBORS[k]? = some (some ⟨0⟩, ftn) := by
  decide

/-- Every table entry for a cube index in `0..25` has a `face_to_next`. -/
lemma table_prev : ∀ j, j < 26 →
    ∃ a f, FACES_TO_NEIGHBORS[j]? = some (a, some f) := by
  decide

/-- Adding a unit direction to a location and subtracting the location again
recovers the direction (`(L + d) - L == d`). -/
lemma add_sub_self (l : Location) (d : Direction) (h : d.isUnit = true) :
    (l.add d).sub l = some d := by
  rcases d with ⟨x, y, z⟩
  have e1 : l.x + x - l.x = x := by ring
  have e2 : l.y + y - l.y = y := by ring
  have e3 : l.z + z - l.z = z := by ring
  simp only [Location.add, Location.sub, Direction.mkUnit, e1, e2, e3, h, if_true]

/-- When `face_direction` raises for the previous cube's connection face, the
whole step raises. -/
lemma dfsPrep_fd_none {k : Nat} {s : State} {prev : Location}
    {po : Orientation} {ftn pfa : Option Face} {pf : Face}
    (htab : FACES_TO_NEIGHBORS[k]? = some (some ⟨0⟩, ftn))
    (hloc : s.LOCATIONS[k - 1]? = some prev)
    (hor : s.ORIENTATIONS[k - 1]? = some po)
    (htab2 : FACES_TO_NEIGHBORS[k - 1]? = some (pfa, some pf))
    (hfd : po.face_direction pf = none) :
    dfsPrep k s = .err := by
  unfold dfsPrep
  simp [htab, hloc, hor, htab2, hfd]

/-- Forward evaluation of the straight-line prefix of a `dfs` step, given the
data it reads: the step prunes exactly on an out-of-bounds or colliding
location, and otherwise reaches the candidate loop with location
`prev + direction` and a non-empty list of well-formed candidates. -/
lemma dfsPrep_eval {k : Nat} {s : State} {prev : Location} {po : Orientation}
    {ftn pfa : Option Face} {pf : Face} {d : Direction}
    (htab : FACES_TO_NEIGHBORS[k]? = some (some ⟨0⟩, ftn))
    (hloc : s.LOCATIONS[k - 1]? = some prev)
    (hor : s.ORIENTATIONS[k - 1]? = some po)
    (htab2 : FACES_TO_NEIGHBORS[k - 1]? = some (pfa, some pf))
    (hd : po.face_direction pf = some d) :
    ((prev.add d).in_bounds = false → dfsPrep k s = .prune) ∧
    ((prev.add d).in_bounds = true → (prev.add d) ∈ s.LOCATIONS →
      dfsPrep k s = .prune) ∧
    ((prev.add d).in_bounds = true → (prev.add d) ∉ s.LOCATIONS →
      ∃ o0 l, o0.wf = true ∧ l ≠ [] ∧ (∀ o2 ∈ l, o2.wf = true) ∧
        buildOrientations o0 ⟨0⟩ ftn = some l ∧
        dfsPrep k s = .go (prev.add d) l) := by
  have hdu : d.isUnit = true := face_direction_unit hd
  obtain ⟨rd, hrd, hrdu⟩ := reverse_unit d hdu
  obtain ⟨o0, ho0, hwf0, _⟩ := face0_towards_spec rd hrdu
  obtain ⟨l, hl, hlne, hlwf⟩ := buildOrientations_wf o0 ⟨0⟩ ftn hwf0
  refine ⟨?_, ?_, ?_⟩
  · intro hb
    unfold dfsPrep
    simp [htab, hloc, hor, htab2, hd, hb]
  · intro hb hm
    unfold dfsPrep
    simp [htab, hloc, hor, htab2, hd, hb, hm]
  · intro hb hm
    have hgo : dfsPrep k s = .go (prev.add d) l := by
      unfold dfsPrep
      simp [htab, hloc, hor, htab2, hd, hb, hm, hrd, ho0, hl]
    exact ⟨o0, l, hwf0, hlne, hlwf, hl, hgo⟩

/-- The pairwise joint condition is untouched below the top of the stacks
when a new location and orientation are pushed. -/
lemma chainAt_push (s : State) (l0 : Location) (o : Orientation) (i : Nat)
    (h1 : i + 1 < s.LOCATIONS.length) (h2 : i < s.ORIENTATIONS.length) :
    chainAt ((s.pushLoc l0).pushOrient o) i = chainAt s i := by
  unfold chainAt State.pushLoc State.pushOrient
  simp only []
  rw [getElem?_append_left' h2, getElem?_append_left' (by omega : i < s.LOCATIONS.length),
    getElem?_append_left' h1]

/-- Pushing the location computed for the next cube together with any
candidate orientation preserves the placement invariant. -/
lemma validState_push {k : Nat} {s : State} (hv : validState k s)
    (h1 : 1 ≤ k)
    {prev : Location} {po : Orientation} {pfa : Option Face} {pf : Face}
    {d : Direction}
    (hloc : s.LOCATIONS[k - 1]? = some prev)
    (hor : s.ORIENTATIONS[k - 1]? = some po)
    (htab2 : FACES_TO_NEIGHBORS[k - 1]? = some (pfa, some pf))
    (hd : po.face_direction pf = some d)
    (hb : (prev.add d).in_bounds = true)
    (hm : (prev.add d) ∉ s.LOCATIONS)
    (o : Orientation) :
    validState (k + 1) ((s.pushLoc (prev.add d)).pushOrient o) := by
  obtain ⟨hl, ho, hnd, hib, hchain⟩ := hv
  refine ⟨by simp [State.pushLoc, State.pushOrient, hl],
    by simp [State.pushLoc, State.pushOrient, ho], ?_, ?_, ?_⟩
  · show (s.LOCATIONS ++ [prev.add d]).Nodup
    rw [List.nodup_append]
    exact ⟨hnd, List.nodup_singleton _, by simpa using hm⟩
  · intro l2 hl2
    rcases List.mem_append.mp hl2 with h | h
    · exact hib l2 h
    · simp only [List.mem_singleton] at h
      subst h
      exact hb
  · intro i hi
    have hi2 : i < k := by omega
    by_cases hik : i < k - 1
    · rw [chainAt_push s _ o i (by omega) (by omega)]
      exact hchain i hik
    · have hik2 : i = k - 1 := by omega
      subst hik2
      have hfix : k - 1 + 1 = k := by omega
      unfold chainAt State.pushLoc State.pushOrient
      simp only []
      rw [getElem?_append_left' (by omega : k - 1 < s.ORIENTATIONS.length), hor,
        getElem?_append_left' (by omega : k - 1 < s.LOCATIONS.length), hloc,
        htab2, hfix]
      rw [show (s.LOCATIONS ++ [prev.add d])[k]? = some (prev.add d) from by
        rw [← hl]; exact List.getElem?_concat_length _ _]
      simp [hd, add_sub_self prev d (face_direction_unit hd)]

/-! ## The invariant carried to a successful termination -/

/-- If the recursive call restores state on failure and establishes `C` on
success from any pushed candidate, then a successful pass of the candidate
loop establishes `C`. -/
lemma dfsLoop_success (next : State → Option (PyVal × State))
    (hres : ∀ u w u', next u = some (w, u') → w.toBool = false → u' = u)
    (C : State → Prop) :
    ∀ (os : List Orientation) (t : State) (v : PyVal) (s' : State),
    (∀ o ∈ os, ∀ u', next (t.pushOrient o) = some (PyVal.vTrue, u') → C u') →
    dfsLoop next os t = some (v, s') → v = PyVal.vTrue → C s' := by
  intro os
  induction os with
  | nil =>
    intro t v s' _ h hv
    unfold dfsLoop at h
    split at h
    · simp at h
    · injection h with h1
      injection h1 with h2 h3
      subst hv
      simp at h2
  | cons o rest ih =>
    intro t v s' hnx h hv
    unfold dfsLoop at h
    split at h
    · simp at h
    · rename_i w s2 hw
      split at h
      · rename_i hwt
        injection h with h1
        injection h1 with h2 h3
        subst h3
        have hw2 : w = PyVal.vTrue := by
          cases w
          · rfl
          · simp [PyVal.toBool] at hwt
          · simp [PyVal.toBool] at hwt
        subst hw2
        exact hnx o (by simp) _ hw
      · rename_i hwt
        have hw2 : s2 = t.pushOrient o := hres _ _ _ hw (by simpa using hwt)
        subst hw2
        simp only [pushOrient_popOrient] at h
        exact ih t v s' (fun o2 h2 => hnx o2 (by simp [h2])) h hv

/-- A successful `dfs` call from a valid placement prefix terminates in a
valid placement of all 27 cubes. -/
lemma dfs_success_valid : ∀ (fuel k : Nat) (s s' : State),
    validState k s → dfs fuel k s = some (PyVal.vTrue, s') →
    validState 27 s' := by
  intro fuel
  induction fuel with
  | zero =>
    intro k s s' _ h
    simp [dfs] at h
  | succ f ih =>
    intro k s s' hv h
    have hb : dfsBody (dfs f (k + 1)) k s = some (PyVal.vTrue, s') := h
    unfold dfsBody at hb
    split at hb
    · rename_i hk
      split at hb
      · rename_i hk27
        injection hb with h1
        injection h1 with h2 h3
        subst h3
        rw [← hk27]
        exact hv
      · rename_i hk27
        split at hb
        · simp at hb
        · injection hb with h1
          injection h1 with h2 h3
          exact absurd h2 (by simp)
        · rename_i curr orients hprep
          have h1k : 1 ≤ k := hk.1
          have hk26 : k ≤ 26 := by omega
          obtain ⟨ftn, htab⟩ := table_entry k h1k (by omega)
          obtain ⟨pfa, pf, htab2⟩ := table_prev (k - 1) (by omega)
          have hlt : k - 1 < s.LOCATIONS.length := by rw [hv.1]; omega
          have hlt2 : k - 1 < s.ORIENTATIONS.length := by rw [hv.2.1]; omega
          have hloc := List.getElem?_eq_getElem hlt
          have hor := List.getElem?_eq_getElem hlt2
          cases hfd : (s.ORIENTATIONS[k - 1]).face_direction pf with
          | none =>
            rw [dfsPrep_fd_none htab hloc hor htab2 hfd] at hprep
            simp at hprep
          | some d =>
            have heval := dfsPrep_eval htab hloc hor htab2 hfd
            by_cases hbnd : ((s.LOCATIONS[k - 1]).add d).in_bounds = true
            · by_cases hmem : (s.LOCATIONS[k - 1]).add d ∈ s.LOCATIONS
              · rw [heval.2.1 hbnd hmem] at hprep
                simp at hprep
              · obtain ⟨o0, l, hwf0, hlne, hlwf, hbl, hgo⟩ := heval.2.2 hbnd hmem
                rw [hgo] at hprep
                injection hprep with hc hl2
                subst hc
                subst hl2
                exact dfsLoop_success (dfs f (k + 1))
                  (fun u w u' hu hw => dfs_restore f (k + 1) u w u' hu hw)
                  (validState 27) _ _ PyVal.vTrue s'
                  (fun o ho u' hu =>
                    ih (k + 1) _ u'
                      (validState_push hv h1k hloc hor htab2 hfd hbnd hmem o) hu)
                  hb rfl
            · rw [heval.1 (by simpa using hbnd)] at hprep
              simp at hprep
    · simp at hb

/-- C1: a successful `dfs` call made from a valid placement prefix of length
`k` leaves 27 placed cubes on the stacks: both stacks have length 27, the 27
locations are pairwise distinct with every coordinate in `[0,3)`, and every
consecutive pair satisfies
`ORIENTATIONS[i].face_direction(face_to_next[i]) = LOCATIONS[i+1] - LOCATIONS[i]`
(the `chainAt` condition). -/
theorem claim_C1_success_invariant :
    ∀ (fuel k : Nat) (s s' : State),
    1 ≤ k → k ≤ 27 → validState k s →
    dfs fuel k s = some (PyVal.vTrue, s') →
    s'.LOCATIONS.length = 27 ∧ s'.ORIENTATIONS.length = 27 ∧
    s'.LOCATIONS.Nodup ∧ (∀ l ∈ s'.LOCATIONS, l.in_bounds = true) ∧
    (∀ i, i < 26 → chainAt s' i = true) := by
  intro fuel k s s' _ _ hv h
  obtain ⟨a, b, c, d, e⟩ := dfs_success_valid fuel k s s' hv h
  exact ⟨a, b, c, d, fun i hi => e i (by omega)⟩

/-- C1, witness: the solution state the program reaches is a valid placement
prefix of length 27, and `dfs 27` run on it succeeds immediately, leaving
the stacks intact and satisfying all the invariants. -/
theorem claim_C1_witness :
    (validState 27 wSolState ∧
      dfs 1 27 wSolState = some (PyVal.vTrue, wSolState)) ∧
    wSolState.LOCATIONS.length = 27 ∧ wSolState.ORIENTATIONS.length = 27 ∧
    wSolState.LOCATIONS.Nodup ∧
    (∀ l ∈ wSolState.LOCATIONS, l.in_bounds = true) ∧
    (∀ i, i < 26 → chainAt wSolState i = true) :=
  ⟨⟨by decide, by decide⟩,
   claim_C1_success_invariant 1 27 wSolState wSolState (by decide) (by decide)
     (by decide) (by decide)⟩

/-! ## Exceptions cannot escape the search -/

/-- If every recursive call is exception-free on the reachable states and
restores state on failure, a pass of the candidate loop is exception-free. -/
lemma dfsLoop_isSome (next : State → Option (PyVal × State))
    (hres : ∀ u w u', next u = some (w, u') → w.toBool = false → u' = u) :
    ∀ (os : List Orientation) (t : State),
    (∀ o ∈ os, (next (t.pushOrient o)).isSome = true) →
    t.LOCATIONS ≠ [] →
    (dfsLoop next os t).isSome = true := by
  intro os
  induction os with
  | nil =>
    intro t _ hne
    unfold dfsLoop State.popLoc
    rw [if_neg hne]
    rfl
  | cons o rest ih =>
    intro t hnx hne
    unfold dfsLoop
    obtain ⟨p, hsome⟩ := Option.isSome_iff_exists.mp (hnx o (by simp))
    rcases p with ⟨v, s2⟩
    simp only [hsome]
    cases hv : v.toBool with
    | true => rfl
    | false =>
      simp only [hv, Bool.false_eq_true, if_false]
      have h2 : s2 = t.pushOrient o := hres _ _ _ hsome hv
      subst h2
      simp only [pushOrient_popOrient]
      exact ih t (fun o2 h2 => hnx o2 (by simp [h2])) hne

/-- With enough fuel, `dfs` never raises from a well-formed state: every
assert passes, every index is in range, and every geometry operation is
applied within its domain. -/
lemma dfs_isSome : ∀ (fuel k : Nat) (s : State),
    1 ≤ k → k ≤ 27 → 28 - k ≤ fuel → wfState k s →
    (dfs fuel k s).isSome = true := by
  intro fuel
  induction fuel with
  | zero =>
    intro k s h1 h2 h3 _
    omega
  | succ f ih =>
    intro k s h1 h2 h3 hw
    show (dfsBody (dfs f (k + 1)) k s).isSome = true
    unfold dfsBody
    rw [if_pos ⟨h1, h2⟩]
    by_cases hk27 : k = 27
    · rw [if_pos hk27]
      rfl
    · rw [if_neg hk27]
      have hk26 : k ≤ 26 := by omega
      obtain ⟨hl, ho, hwf⟩ := hw
      obtain ⟨ftn, htab⟩ := table_entry k h1 (by omega)
      obtain ⟨pfa, pf, htab2⟩ := table_prev (k - 1) (by omega)
      have hlt : k - 1 < s.LOCATIONS.length := by omega
      have hlt2 : k - 1 < s.ORIENTATIONS.length := by omega
      have hloc := List.getElem?_eq_getElem hlt
      have hor := List.getElem?_eq_getElem hlt2
      have hpo_wf : (s.ORIENTATIONS[k - 1]).wf = true :=
        hwf _ (getElem?_some_mem hor)
      obtain ⟨d, hd⟩ :=
        Option.isSome_iff_exists.mp (wf_face_direction_isSome _ pf hpo_wf)
      have heval := dfsPrep_eval htab hloc hor htab2 hd
      by_cases hbnd : ((s.LOCATIONS[k - 1]).add d).in_bounds = true
      · by_cases hmem : (s.LOCATIONS[k - 1]).add d ∈ s.LOCATIONS
        · rw [heval.2.1 hbnd hmem]
          rfl
        · obtain ⟨o0, l, hwf0, hlne, hlwf, hbl, hgo⟩ := heval.2.2 hbnd hmem
          rw [hgo]
          apply dfsLoop_isSome (dfs f (k + 1))
            (fun u w u' hu hw2 => dfs_restore f (k + 1) u w u' hu hw2)
          · intro o ho2
            apply ih (k + 1) _ (by omega) (by omega) (by omega)
            refine ⟨by simp [State.pushLoc, State.pushOrient, hl],
              by simp [State.pushLoc, State.pushOrient, ho], ?_⟩
            intro o2 h2
            rcases List.mem_append.mp h2 with h3 | h3
            · exact hwf o2 h3
            · simp only [List.mem_singleton] at h3
              subst h3
              exact hlwf _ ho2
          · simp [State.pushLoc]
      · rw [heval.1 (by simpa using hbnd)]
        rfl

/-- C5, counterexample to the claim as stated: not every failure is reported
as a boolean.  From `sExhaust` the call `dfs 1` passes both prunes, but its
single candidate orientation fails, so the function falls off the end of its
loop and returns Python `None`, which is not a boolean value. -/
theorem claim_C5_counterexample :
    dfs 3 1 sExhaust = some (PyVal.vNone, sExhaust) ∧
    PyVal.vNone ≠ PyVal.vTrue ∧ PyVal.vNone ≠ PyVal.vFalse := by
  refine ⟨by decide, by decide, by decide⟩

/-- C5 (amended): search-time negative outcomes never raise an exception;
`dfs` always returns normally from a well-formed state given sufficient
fuel, signalling failure to the caller as a falsy return value (`False` from
the two prunes, `None` after exhausting the candidates) rather than an
exception. -/
theorem claim_C5_failure_is_value :
    ∀ (fuel k : Nat) (s : State),
    1 ≤ k → k ≤ 26 → 28 - k ≤ fuel → wfState k s →
    ∃ v s', dfs fuel k s = some (v, s') := by
  intro fuel k s h1 h2 h3 hw
  obtain ⟨p, hp⟩ :=
    Option.isSome_iff_exists.mp (dfs_isSome fuel k s h1 (by omega) h3 hw)
  exact ⟨p.1, p.2, by rw [hp]⟩

/-- C5, witness: the amended theorem applied to the one-cube state `sPrune`
with fuel 27. -/
theorem claim_C5_witness :
    ∃ v s', dfs 27 1 sPrune = some (v, s') :=
  claim_C5_failure_is_value 27 1 sPrune (le_refl 1) (by decide) (by decide)
    (by decide)

/-! ## The driver -/

/-- One iteration of the driver loop from empty stacks: the asserts pass, the
starting placement goes onto the stacks, and on failure the two pops bring
the stacks back to empty for the next iteration. -/
lemma mainLoop_step (fuel : Nat) (y z : Nat) (rest : List (Nat × Nat)) :
    mainLoop fuel ((y, z) :: rest) State.empty =
      match dfs fuel 1 (startState (y : Int) (z : Int)) with
      | none => none
      | some (v, s2) =>
        if v.toBool then some s2 else mainLoop fuel rest State.empty := by
  have e1 : State.empty.LOCATIONS.length = 0 := by decide
  have e2 : State.empty.ORIENTATIONS.length = 0 := by decide
  have p1 : (startState (y : Int) (z : Int)).popLoc =
      some ⟨[], [startOrientation]⟩ := by
    simp [startState, State.popLoc]
  have p2 : (State.mk [] [startOrientation]).popOrient = some State.empty := by
    simp [State.popOrient, State.empty]
  conv_lhs => rw [mainLoop]
  rw [if_pos e1, if_pos e2]
  rw [show (State.empty.pushLoc ⟨0, (y : Int), (z : Int)⟩).pushOrient
      startOrientation = startState (y : Int) (z : Int) from rfl]
  cases hdfs : dfs fuel 1 (startState (y : Int) (z : Int)) with
  | none => rfl
  | some p =>
    rcases p with ⟨v, s2⟩
    cases hv : v.toBool with
    | true => simp [hv]
    | false =>
      have h2 : s2 = startState (y : Int) (z : Int) :=
        dfs_restore fuel 1 _ v s2 hdfs hv
      subst h2
      simp only [hv, Bool.false_eq_true, if_false, p1, p2]

/-- The driver loop from empty stacks is the spec's first-success iteration
over its list of starting placements. -/
lemma mainLoop_eq_firstSuccess (fuel : Nat) :
    ∀ (ps : List (Nat × Nat)),
    mainLoop fuel ps State.empty =
      firstSuccess fuel (ps.map fun p => ((p.1 : Int), (p.2 : Int))) := by
  intro ps
  induction ps with
  | nil => rfl
  | cons p rest ih =>
    rcases p with ⟨y, z⟩
    rw [mainLoop_step fuel y z rest]
    show _ = firstSuccess fuel (((y : Int), (z : Int)) :: rest.map _)
    unfold firstSuccess
    cases hdfs : dfs fuel 1 (startState (y : Int) (z : Int)) with
    | none => rfl
    | some p2 =>
      rcases p2 with ⟨v, s2⟩
      cases hv : v.toBool with
      | true => simp [hv]
      | false =>
        simp only [hv, Bool.false_eq_true, if_false]
        exact ih

/-- C9: the driver tries exactly the four starting placements of cube 0 at
`(0, y, z)` for `y, z` in `{0, 1}`, in that order, each with the fixed
orientation assigning face 0 to `-x`, face 1 to `-y` and face 2 to `-z`,
invoking the search at cube index 1 for each, and returns at the first
starting placement whose search succeeds (with the solution left on the
stacks; with empty stacks when all four fail). -/
theorem claim_C9_driver (fuel : Nat) :
    main fuel = firstSuccess fuel driverPlacements := by
  have h := mainLoop_eq_firstSuccess fuel mainPairs
  have e : (mainPairs.map fun p => ((p.1 : Int), (p.2 : Int))) =
      driverPlacements := by decide
  rw [main, h, e]

end Twister
